import Mathlib

/-!
Shallow embedding of `src/main.py` (a cached, parallel PDF-OCR keyword
search tool) and verification of the specification's claims about it.

Conventions of the embedding:
* file bytes are `List Nat` (each element a byte value),
* external collaborators (`pdf2image.convert_from_path`, `pytesseract`)
  are oracles passed in explicitly,
* Python dictionaries used as mappings are modelled as functions into
  `Option`,
* Python exceptions are modelled with `Except`.
-/

namespace PdfOcr

/-! ### SHA-256 (model of Python's `hashlib.sha256`)

A byte-level executable SHA-256, used by `file_sha256` below.  The
incremental `h.update(chunk)` interface of `hashlib` absorbs bytes, and
`hexdigest()` returns the digest of everything absorbed, so the digest of
a sequence of `update` calls is `sha256hex` of the concatenation of the
chunks. -/

/-- Truncation to a 32-bit word. -/
def w32 (n : Nat) : Nat := n % 4294967296

/-- Right rotation of a 32-bit word by `n` bits. -/
def rotr (x n : Nat) : Nat := w32 ((x >>> n) ||| (x <<< (32 - n)))

def shaCh (x y z : Nat) : Nat := (x &&& y) ^^^ ((x ^^^ 4294967295) &&& z)

def shaMaj (x y z : Nat) : Nat := (x &&& y) ^^^ (x &&& z) ^^^ (y &&& z)

def bsig0 (x : Nat) : Nat := rotr x 2 ^^^ rotr x 13 ^^^ rotr x 22

def bsig1 (x : Nat) : Nat := rotr x 6 ^^^ rotr x 11 ^^^ rotr x 25

def ssig0 (x : Nat) : Nat := rotr x 7 ^^^ rotr x 18 ^^^ (x >>> 3)

def ssig1 (x : Nat) : Nat := rotr x 17 ^^^ rotr x 19 ^^^ (x >>> 10)

/-- The SHA-256 round constants of FIPS 180-4 (the fractional parts of
the cube roots of the first 64 primes), written in decimal. -/
def shaK : List Nat :=
  [1116352408, 1899447441, 3049323471, 3921009573, 961987163, 1508970993,
   2453635748, 2870763221, 3624381080, 310598401, 607225278, 1426881987,
   1925078388, 2162078206, 2614888103, 3248222580, 3835390401, 4022224774,
   264347078, 604807628, 770255983, 1249150122, 1555081692, 1996064986,
   2554220882, 2821834349, 2952996808, 3210313671, 3336571891, 3584528711,
   113926993, 338241895, 666307205, 773529912, 1294757372, 1396182291,
   1695183700, 1986661051, 2177026350, 2456956037, 2730485921, 2820302411,
   3259730800, 3345764771, 3516065817, 3600352804, 4094571909, 275423344,
   430227734, 506948616, 659060556, 883997877, 958139571, 1322822218,
   1537002063, 1747873779, 1955562222, 2024104815, 2227730452, 2361852424,
   2428436474, 2756734187, 3204031479, 3329325298]

/-- Big-endian byte decomposition of `n` into `k` bytes. -/
def toBytesBE (k n : Nat) : List Nat :=
  (List.range k).map (fun i => (n >>> (8 * (k - 1 - i))) % 256)

/-- Big-endian interpretation of a list of bytes as one number. -/
def bytesToWord (bs : List Nat) : Nat := bs.foldl (fun acc b => acc * 256 + b % 256) 0

/-- SHA-256 padding: append `0x80`, zeros, then the 64-bit bit length. -/
def shaPad (msg : List Nat) : List Nat :=
  msg ++ 0x80 :: List.replicate ((119 - msg.length % 64) % 64) 0
      ++ toBytesBE 8 (8 * msg.length)

/-- The sixteen 32-bit big-endian words of one 64-byte block. -/
def blockWords (block : List Nat) : List Nat :=
  (List.range 16).map (fun j => bytesToWord ((block.drop (4 * j)).take 4))

/-- One step of the message-schedule extension, appending word `w[i]`. -/
def extendStep (ws : List Nat) : List Nat :=
  let i := ws.length
  ws ++ [w32 (ssig1 (ws.getD (i - 2) 0) + ws.getD (i - 7) 0
           + ssig0 (ws.getD (i - 15) 0) + ws.getD (i - 16) 0)]

/-- Extend the 16 block words to the 64-entry message schedule. -/
def schedule (ws : List Nat) : List Nat :=
  (List.range 48).foldl (fun acc _ => extendStep acc) ws

/-- The eight 32-bit working variables of the compression function. -/
structure Hash8 where
  a : Nat
  b : Nat
  c : Nat
  d : Nat
  e : Nat
  f : Nat
  g : Nat
  h : Nat
deriving Repr, DecidableEq

/-- The SHA-256 initial hash value of FIPS 180-4 (the fractional parts of
the square roots of the first 8 primes), written in decimal. -/
def shaInit : Hash8 :=
  ⟨1779033703, 3144134277, 1013904242, 2773480762,
   1359893119, 2600822924, 528734635, 1541459225⟩

/-- One round of the SHA-256 compression function. -/
def shaRound (s : Hash8) (kw : Nat × Nat) : Hash8 :=
  let t1 := w32 (s.h + bsig1 s.e + shaCh s.e s.f s.g + kw.1 + kw.2)
  let t2 := w32 (bsig0 s.a + shaMaj s.a s.b s.c)
  ⟨w32 (t1 + t2), s.a, s.b, s.c, w32 (s.d + t1), s.e, s.f, s.g⟩

/-- Process one 64-byte block, updating the hash state. -/
def processBlock (s : Hash8) (block : List Nat) : Hash8 :=
  let t := (shaK.zip (schedule (blockWords block))).foldl shaRound s
  ⟨w32 (s.a + t.a), w32 (s.b + t.b), w32 (s.c + t.c), w32 (s.d + t.d),
   w32 (s.e + t.e), w32 (s.f + t.f), w32 (s.g + t.g), w32 (s.h + t.h)⟩

/-- Split a list into consecutive blocks of `bs` elements (fuel-indexed
so that it is structurally recursive; `readChunks` below instantiates the
fuel).  Stops on an empty remainder or a zero block size, mirroring
`iter(lambda: f.read(block_size), b"")`, which terminates as soon as a
read returns the empty byte string — and `f.read(0)` is always empty. -/
def readChunksAux : Nat → List Nat → Nat → List (List Nat)
  | 0, _, _ => []
  | fuel + 1, content, bs =>
    if bs = 0 ∨ content = [] then []
    else content.take bs :: readChunksAux fuel (content.drop bs) bs

/-- Split `content` into consecutive blocks of `bs` bytes.  A fuel of
`content.length` is always sufficient because every iteration consumes at
least one byte. -/
def readChunks (content : List Nat) (bs : Nat) : List (List Nat) :=
  readChunksAux content.length content bs

/-- SHA-256 of a byte sequence, as the eight 32-bit words of the digest. -/
def sha256Words (msg : List Nat) : List Nat :=
  let final := (readChunks (shaPad msg) 64).foldl processBlock shaInit
  [final.a, final.b, final.c, final.d, final.e, final.f, final.g, final.h]

/-- Lower-case hexadecimal digit. -/
def hexDigit (n : Nat) : Char :=
  if n < 10 then Char.ofNat (48 + n) else Char.ofNat (87 + n % 16)

/-- Eight-character lower-case hexadecimal rendering of a 32-bit word. -/
def wordHex (w : Nat) : String :=
  String.mk ((List.range 8).map (fun i => hexDigit ((w >>> (4 * (7 - i))) % 16)))

/-- Model of `hashlib.sha256(msg).hexdigest()`: the 64-character
lower-case hexadecimal SHA-256 digest of `msg`. -/
def sha256hex (msg : List Nat) : String :=
  String.join ((sha256Words msg).map wordHex)

/-! ### ContentHasher: `file_sha256` (src/main.py 132-138) -/

/-- Model of `file_sha256(path, block_size)`: reads the file as successive
blocks of `block_size` bytes (the read loop stops at the first empty
read), feeding each block to the incremental hash with `h.update(chunk)`;
`hexdigest()` then returns the SHA-256 of the concatenation of all
absorbed blocks. -/
def file_sha256 (content : List Nat) (block_size : Nat := 65536) : String :=
  sha256hex ((readChunks content block_size).foldl (fun acc chunk => acc ++ chunk) [])

/-! ### CorpusScanner: `list_pdf_files` (src/main.py 161-165) -/

/-- Index of the last occurrence of `c` in `cs`, if any. -/
def lastIdxOf (c : Char) (cs : List Char) : Option Nat :=
  ((List.range cs.length).filter (fun i => cs.getD i ' ' == c)).getLast?

/-- Model of `pathlib.PurePath.suffix` on a file name: the substring from
the last dot onward, provided that dot is neither the first nor the last
character of the name; the empty string otherwise (so a file literally
named `.pdf` has no suffix). -/
def pathSuffix (name : String) : String :=
  let cs := name.toList
  match lastIdxOf '.' cs with
  | some i => if 0 < i ∧ i + 1 < cs.length then String.mk (cs.drop i) else ""
  | none => ""

/-- Model of Python's `str.lower` on one character, for the ASCII range
the recognized extension lives in. -/
def charLower (c : Char) : Char :=
  if 'A' ≤ c ∧ c ≤ 'Z' then Char.ofNat (c.toNat + 32) else c

/-- Model of `s.lower()`. -/
def strLower (s : String) : String := String.mk (s.toList.map charLower)

/-- Code-point lexicographic order on character lists: the order Python's
`sorted` induces on the path strings (all in the same directory). -/
def lexLe : List Char → List Char → Prop
  | [], _ => True
  | _ :: _, [] => False
  | a :: as, b :: bs => a < b ∨ (a = b ∧ lexLe as bs)

def lexLeDec : (as bs : List Char) → Decidable (lexLe as bs)
  | [], _ => Decidable.isTrue trivial
  | _ :: _, [] => Decidable.isFalse (fun h => h)
  | a :: as, b :: bs =>
    have : Decidable (lexLe as bs) := lexLeDec as bs
    inferInstanceAs (Decidable (a < b ∨ (a = b ∧ lexLe as bs)))

/-- The order `sorted` uses on the returned path strings. -/
def pathLe (a b : String) : Prop := lexLe a.toList b.toList

instance : DecidableRel pathLe := fun a b => lexLeDec a.toList b.toList

/-- One entry of a directory listing: the entry's final name component,
its `resolve()`d absolute path, and whether `is_file()` holds for it. -/
structure DirEntry where
  name : String
  resolved : String
  isFile : Bool
deriving Repr, DecidableEq

/-- The filter of `list_pdf_files`: a regular file whose suffix,
lower-cased, is `.pdf`. -/
def isPdfEntry (f : DirEntry) : Bool :=
  f.isFile && strLower (pathSuffix f.name) == ".pdf"

/-- Model of `list_pdf_files(src_dir)`.  The argument is `none` when
`Path(src_dir).is_dir()` is false (missing, or not a directory), in which
case the function raises `SystemExit`; otherwise it is the directory's
listing, and the call returns the resolved paths of the matching regular
files, sorted. -/
def list_pdf_files (dir : Option (List DirEntry)) : Except String (List String) :=
  match dir with
  | none => Except.error "SOURCE_DIR not found or not a directory"
  | some entries =>
      Except.ok (List.insertionSort pathLe ((entries.filter isPdfEntry).map
        (fun f => f.resolved)))

/-! ### Data model of the cache (src/main.py 188-304) -/

/-- The per-document payload dict built by `ocr_pdf_with_cache` and stored
in `CACHE_DIR/<sha256>.json`. -/
structure OcrData where
  path : String
  sha256 : String
  mtime : Int
  size : Nat
  cache_file : String
  pages : List String
deriving Repr, DecidableEq

/-- One value of the index mapping `ocr_index.json`: absolute path to
file-identity metadata plus the cache object name. -/
structure IndexEntry where
  mtime : Int
  size : Nat
  sha256 : String
  cache_file : String
deriving Repr, DecidableEq

/-- The in-memory index dict, keyed by absolute path. -/
abbrev IndexMap := String → Option IndexEntry

/-- The record files of `CACHE_DIR`, keyed by file name: `none` means the
file is absent, `some none` that it exists but `json.loads` fails on it,
`some (some d)` that it parses to `d`. -/
abbrev Store := String → Option (Option OcrData)

/-- A page image, as the PNG bytes submitted to a worker. -/
abbrev Img := List Nat

/-- The Python exceptions `ocr_pdf_with_cache` can raise in the model:
`unboundLocal` is the `UnboundLocalError` of `return data` when `data`
was never assigned, `persistence` an I/O error from `safe_write_json`. -/
inductive PyErr
  | unboundLocal
  | persistence
deriving Repr, DecidableEq

/-- The external collaborators and fault injections of one run:
`recognize` models the body of the worker's try-block (Image.open,
RGB-conversion, `pytesseract.image_to_string`), returning `none` when it
raises; the two flags tell whether the `safe_write_json` calls for the
record file and for the index succeed. -/
structure Env where
  recognize : Img → Option String
  recordWriteOk : Bool
  indexWriteOk : Bool

/-- One source document as `ocr_pdf_with_cache` observes it: its resolved
absolute path, `int(st.st_mtime)`, `st.st_size`, its raw bytes, and the
result of `convert_from_path` (`none` when the rasterizer raises). -/
structure Doc where
  absPath : String
  mtime : Int
  size : Nat
  content : List Nat
  raster : Option (List Img)

/-- Pointwise update of a string-keyed mapping, modelling `m[k] = v`. -/
def updf {α : Type} (m : String → Option α) (k : String) (v : α) : String → Option α :=
  fun x => if x = k then some v else m x

/-- The empty mapping, modelling `{}`. -/
def emptyIndex : IndexMap := fun _ => none

/-- The empty cache directory. -/
def emptyStore : Store := fun _ => none

/-- Model of `load_index()` (src/main.py 148-154).  The argument is the
current content of `INDEX_FILE`: `none` when the file does not exist,
`some none` when it exists but `json.loads` raises, `some (some m)` when
it parses to the mapping `m`. -/
def load_index (indexFileContent : Option (Option IndexMap)) : IndexMap :=
  match indexFileContent with
  | some (some m) => m
  | some none => emptyIndex
  | none => emptyIndex

/-! ### PageWorkerPool (src/main.py 168-185 and 227-277) -/

/-- Model of `ocr_bytes_worker(args)` (src/main.py 168-185): the worker
receives the page image bytes and the 1-based page number, and returns
`(page_no, text)`; every exception inside recognition is caught and
yields the empty string for that page. -/
def ocr_bytes_worker (recognize : Img → Option String) (args : Img × Nat) : Nat × String :=
  (args.2, (recognize args.1).getD "")

/-- The task list built from the page images: each image paired with its
1-based page number, mirroring `enumerate(images, start=1)`. -/
def makeTasks (images : List Img) : List (Img × Nat) :=
  images.zip (List.range' 1 images.length)

/-- Comparison of collected `(page_no, text)` pairs by page number, the
`key=lambda x: x[0]` of `pages_text.sort`. -/
def keyLe (a b : Nat × String) : Prop := a.1 ≤ b.1

instance : DecidableRel keyLe := fun a b => Nat.decLe a.1 b.1

/-- Collection of worker results: sort the collected pairs by page
number (a stable sort, like Python's `list.sort`) and keep the texts. -/
def collectPages (completed : List (Nat × String)) : List String :=
  (List.insertionSort keyLe completed).map Prod.snd

/-! ### ExtractionCoordinator: `ocr_pdf_with_cache` (src/main.py 188-304) -/

/-- The cache-hit test of src/main.py 201-211: the index entry for the
document's absolute path, if any, must match the current mtime and size
exactly, and the referenced cache file must exist and parse; any failure
falls through to reprocessing. -/
def cacheHit (index : IndexMap) (store : Store) (doc : Doc) : Option OcrData :=
  match index doc.absPath with
  | some entry =>
      if entry.mtime = doc.mtime ∧ entry.size = doc.size then
        match store entry.cache_file with
        | some (some d) => some d
        | some none => none
        | none => none
      else none
  | none => none

/-- The full observable result of one `ocr_pdf_with_cache` call:
the returned value or raised exception, the caller's index dict after
the call (it is mutated in place), the record files of the cache
directory, and the content of the on-disk index file. -/
structure Outcome where
  result : Except PyErr OcrData
  index : IndexMap
  store : Store
  diskIndex : IndexMap

/-- Model of `ocr_pdf_with_cache(pdf_path, index)`.  On a cache hit the
cached record is returned unchanged.  Otherwise the content hash is
recomputed, the document is rasterized (a rasterizer failure is caught
and treated as zero pages), the pages are recognized by the worker pool
and collected in page order; with at least one page the record is
written, the in-memory index mutated, and the index persisted — in that
order, each `safe_write_json` failure raising — and with zero pages the
final `return data` raises `UnboundLocalError` because `data` was never
assigned. -/
def ocr_pdf_with_cache (env : Env) (doc : Doc) (index : IndexMap) (store : Store)
    (diskIndex : IndexMap) : Outcome :=
  match cacheHit index store doc with
  | some d => ⟨Except.ok d, index, store, diskIndex⟩
  | none =>
    let sha := file_sha256 doc.content
    let cache_filename := sha ++ ".json"
    let images := (doc.raster).getD []
    let tasks := makeTasks images
    let pages_text :=
      if tasks.isEmpty then []
      else collectPages (tasks.map (ocr_bytes_worker env.recognize))
    if pages_text.isEmpty then
      ⟨Except.error PyErr.unboundLocal, index, store, diskIndex⟩
    else
      let data : OcrData :=
        ⟨doc.absPath, sha, doc.mtime, doc.size, cache_filename, pages_text⟩
      if env.recordWriteOk then
        let store1 := updf store cache_filename (some data)
        let index1 := updf index doc.absPath ⟨doc.mtime, doc.size, sha, cache_filename⟩
        if env.indexWriteOk then ⟨Except.ok data, index1, store1, index1⟩
        else ⟨Except.error PyErr.persistence, index1, store1, diskIndex⟩
      else ⟨Except.error PyErr.persistence, index, store, diskIndex⟩

/-- Model of the per-document loop of `main` (src/main.py 343-348): each
document is processed with the shared index dict; a successful result is
recorded in `all_data` under the document's resolved path, an exception
is caught, reported, and the loop continues with the next document. -/
def processAll (env : Env) (docs : List Doc) (index : IndexMap) (store : Store)
    (diskIndex : IndexMap) : List (String × OcrData) × IndexMap × Store × IndexMap :=
  docs.foldl
    (fun acc doc =>
      let o := ocr_pdf_with_cache env doc acc.2.1 acc.2.2.1 acc.2.2.2
      match o.result with
      | Except.ok d => (acc.1 ++ [(doc.absPath, d)], o.index, o.store, o.diskIndex)
      | Except.error _ => (acc.1, o.index, o.store, o.diskIndex))
    ([], index, store, diskIndex)

/-! ### CacheStore durability: `safe_write_json` (src/main.py 141-145)

A byte-exact filesystem model is not needed to state crash-safety; the
model tracks, per path, whether a file is absent, partially written
(`junk`), a complete serialized record, or a complete serialized index.
A destination written by `safe_write_json` changes only in the final
`tmp.replace(path)` step, which is an atomic rename. -/

/-- The parseable content of one cache-directory file. -/
inductive FileData
  | junk
  | record (d : OcrData)
  | indexData (m : List (String × IndexEntry))
deriving DecidableEq

/-- A directory snapshot: path to file content, `none` when absent. -/
abbrev FS := String → Option FileData

/-- The temporary path used by `safe_write_json` for destination `p`:
`path.with_suffix(path.suffix + ".tmp")` replaces the final `.json`
suffix of every destination the program writes by `.json.tmp`, i.e.
appends `.tmp` to the path, staying in the same directory. -/
def tmpName (p : String) : String := p ++ ".tmp"

/-- Update of one path of a directory snapshot. -/
def fsSet (fs : FS) (p : String) (v : Option FileData) : FS :=
  fun k => if k = p then v else fs k

/-- Every directory snapshot a crash during `safe_write_json(p, v)` can
leave behind: before the call; with a partially written temporary file;
with the temporary file complete; and after the atomic rename, which
removes the temporary file and replaces the destination in one step. -/
def safe_write_json_states (fs : FS) (p : String) (v : FileData) : List FS :=
  [fs,
   fsSet fs (tmpName p) (some FileData.junk),
   fsSet fs (tmpName p) (some v),
   fsSet (fsSet fs (tmpName p) none) p (some v)]

/-- The directory snapshot after a completed `safe_write_json(p, v)`. -/
def safe_write_json_fs (fs : FS) (p : String) (v : FileData) : FS :=
  fsSet (fsSet fs (tmpName p) none) p (some v)

/-- The file name of the index inside the cache directory. -/
def indexName : String := "ocr_index.json"

/-- Every directory snapshot a crash can expose while the miss path of
`ocr_pdf_with_cache` persists its result (src/main.py 292-302): first
`safe_write_json(cache_path, data)` runs to completion, then
`save_index(index)` — the record is durably in place before the index
ever mentions it. -/
def persistStates (cacheDir : String) (fs : FS) (d : OcrData)
    (m : List (String × IndexEntry)) : List FS :=
  safe_write_json_states fs (cacheDir ++ d.cache_file) (FileData.record d) ++
    safe_write_json_states (safe_write_json_fs fs (cacheDir ++ d.cache_file) (FileData.record d))
      (cacheDir ++ indexName) (FileData.indexData m)

/-- Whether a file holds one complete serialized record. -/
def isRecordFile : Option FileData → Bool
  | some (FileData.record _) => true
  | _ => false

/-- Reader-visible consistency of a snapshot: whenever the index file
parses, every entry of it references an existing, completely written
record file. -/
def readerConsistent (cacheDir : String) (fs : FS) : Prop :=
  ∀ m, fs (cacheDir ++ indexName) = some (FileData.indexData m) →
    ∀ pe ∈ m, isRecordFile (fs (cacheDir ++ pe.2.cache_file)) = true

/-- The directory component of a path: everything before the last slash,
empty when there is none. -/
def parentDir (s : String) : String :=
  match lastIdxOf '/' s.toList with
  | some i => String.mk (s.toList.take i)
  | none => ""

/-! ### Supporting lemmas -/

theorem foldl_append_eq_join (l : List (List Nat)) (acc : List Nat) :
    l.foldl (fun a c => a ++ c) acc = acc ++ l.flatten := by
  induction l generalizing acc with
  | nil => simp
  | cons head tail ih => simp [ih, List.append_assoc]

theorem readChunksAux_join : ∀ (fuel : Nat) (content : List Nat) (bs : Nat),
    0 < bs → content.length ≤ fuel → (readChunksAux fuel content bs).flatten = content := by
  intro fuel
  induction fuel with
  | zero =>
    intro content bs _ hlen
    have : content = [] := List.eq_nil_of_length_eq_zero (Nat.le_zero.mp hlen)
    simp [this, readChunksAux]
  | succ n ih =>
    intro content bs hbs hlen
    by_cases h : bs = 0 ∨ content = []
    · rcases h with h | h
      · omega
      · simp [readChunksAux, h]
    · push_neg at h
      rw [show readChunksAux (n + 1) content bs
            = content.take bs :: readChunksAux n (content.drop bs) bs by
          simp only [readChunksAux]
          rw [if_neg (by tauto)], List.flatten_cons]
      rw [ih (content.drop bs) bs hbs]
      · exact List.take_append_drop bs content
      · have h1 : content.length ≠ 0 := by
          intro h0
          exact h.2 (List.eq_nil_of_length_eq_zero h0)
        simp only [List.length_drop]
        omega

theorem readChunks_join (content : List Nat) (bs : Nat) (hbs : 0 < bs) :
    (readChunks content bs).flatten = content :=
  readChunksAux_join content.length content bs hbs (Nat.le_refl _)

theorem file_sha256_pos (content : List Nat) (bs : Nat) (hbs : 0 < bs) :
    file_sha256 content bs = sha256hex content := by
  unfold file_sha256
  rw [foldl_append_eq_join, List.nil_append, readChunks_join content bs hbs]

/-! ### Claim C8 -/

set_option maxRecDepth 10000 in
/-- Claim C8, counterexample.  As stated, the claim fails for block size
zero: `f.read(0)` returns the empty byte string, so the read loop of
`file_sha256` stops before reading anything and the digest of a one-byte
file is the digest of the empty byte sequence, not of the file's
content. -/
theorem C8_zero_block_counterexample :
    file_sha256 [97] 0 ≠ sha256hex [97] ∧ file_sha256 [97] 0 = sha256hex [] := by
  constructor <;> decide

/-- Claim C8 (amended to positive block sizes): for every positive block
size, the digest computed by streaming the file in fixed-size blocks
equals the SHA-256 digest of the file's full byte content; hence the
function is deterministic, any two files with identical bytes receive
identical digests independently of the (positive) block sizes chosen, and
they receive the same cache object name. -/
theorem C8_streamed_digest (c1 c2 : List Nat) (bs1 bs2 : Nat)
    (h1 : 0 < bs1) (h2 : 0 < bs2) (heq : c1 = c2) :
    file_sha256 c1 bs1 = sha256hex c1 ∧
    file_sha256 c1 bs1 = file_sha256 c2 bs2 ∧
    file_sha256 c1 bs1 ++ ".json" = file_sha256 c2 bs2 ++ ".json" := by
  subst heq
  refine ⟨file_sha256_pos c1 bs1 h1, ?_, ?_⟩ <;>
    rw [file_sha256_pos c1 bs1 h1, file_sha256_pos c1 bs2 h2]

/-- Claim C8, witness: the amended theorem at a concrete three-byte file
with block sizes 1 and 65536 (the default). -/
theorem C8_streamed_digest_witness :
    file_sha256 [97, 98, 99] 1 = sha256hex [97, 98, 99] ∧
    file_sha256 [97, 98, 99] 1 = file_sha256 [97, 98, 99] 65536 :=
  ⟨(C8_streamed_digest [97, 98, 99] [97, 98, 99] 1 65536 (by decide) (by decide) rfl).1,
   (C8_streamed_digest [97, 98, 99] [97, 98, 99] 1 65536 (by decide) (by decide) rfl).2.1⟩

/-! ### Ordered collection of worker results -/

/-- Strict comparison of collected pairs by page number. -/
def keyLt (a b : Nat × String) : Prop := a.1 < b.1

instance : IsTrans (Nat × String) keyLe := ⟨fun _ _ _ => Nat.le_trans⟩

instance : IsTotal (Nat × String) keyLe := ⟨fun a b => Nat.le_total a.1 b.1⟩

instance : IsAntisymm (Nat × String) keyLt :=
  ⟨fun _ _ h1 h2 => absurd (Nat.lt_trans h1 h2) (Nat.lt_irrefl _)⟩

/-- The texts recognition yields for the pages, in page order; a page
whose recognition raises contributes the empty string. -/
def recTexts (recognize : Img → Option String) (images : List Img) : List String :=
  images.map (fun img => (recognize img).getD "")

theorem map_fst_worker (recognize : Img → Option String) (images : List Img) :
    ((makeTasks images).map (ocr_bytes_worker recognize)).map Prod.fst
      = List.range' 1 images.length := by
  rw [List.map_map, makeTasks]
  rw [show (Prod.fst ∘ ocr_bytes_worker recognize) = (Prod.snd : Img × Nat → Nat) from rfl]
  rw [List.map_snd_zip images (List.range' 1 images.length) (by simp)]

theorem map_snd_worker (recognize : Img → Option String) (images : List Img) :
    ((makeTasks images).map (ocr_bytes_worker recognize)).map Prod.snd
      = recTexts recognize images := by
  rw [List.map_map, makeTasks, recTexts]
  rw [show (Prod.snd ∘ ocr_bytes_worker recognize)
        = ((fun img => (recognize img).getD "") ∘ (Prod.fst : Img × Nat → Img)) from rfl]
  rw [← List.map_map, List.map_fst_zip images (List.range' 1 images.length) (by simp)]

/-- Collection is order-correct for any completion order: if the
collected pairs are any permutation of the submitted tasks' results, the
sort by page number restores submission order, so the extracted texts are
the recognition results of the pages in their original order. -/
theorem collectPages_perm (recognize : Img → Option String) (images : List Img)
    (completed : List (Nat × String))
    (hperm : completed.Perm ((makeTasks images).map (ocr_bytes_worker recognize))) :
    collectPages completed = recTexts recognize images := by
  set target := (makeTasks images).map (ocr_bytes_worker recognize) with htarget
  have hsorted_t : target.Pairwise keyLt := by
    have h1 : (target.map Prod.fst).Pairwise (· < ·) := by
      rw [htarget, map_fst_worker]
      exact List.pairwise_lt_range' 1 images.length
    rw [List.pairwise_map] at h1
    exact h1
  have hperm2 : (List.insertionSort keyLe completed).Perm target :=
    (List.perm_insertionSort keyLe completed).trans hperm
  have hsorted_s : (List.insertionSort keyLe completed).Pairwise keyLe :=
    List.sorted_insertionSort keyLe completed
  have hnodup : ((List.insertionSort keyLe completed).map Prod.fst).Nodup := by
    have h2 : (target.map Prod.fst).Nodup := by
      rw [htarget, map_fst_worker]
      exact (List.pairwise_lt_range' 1 images.length).imp Nat.ne_of_lt
    exact ((hperm2.map Prod.fst).nodup_iff).mpr h2
  have hne : (List.insertionSort keyLe completed).Pairwise
      (fun a b : Nat × String => a.1 ≠ b.1) := by
    have h3 := hnodup
    rw [List.Nodup, List.pairwise_map] at h3
    exact h3
  have hsorted_lt : (List.insertionSort keyLe completed).Pairwise keyLt :=
    (hsorted_s.and hne).imp (fun h => Nat.lt_of_le_of_ne h.1 h.2)
  have heq : List.insertionSort keyLe completed = target :=
    List.eq_of_perm_of_sorted hperm2 hsorted_lt hsorted_t
  rw [collectPages, heq, htarget, map_snd_worker]

/-! ### Claim C3 -/

/-- Claim C3: for every ordered sequence of page images submitted to the
pool, and for every order in which the workers complete (any permutation
of the per-task results), the collected pages list has exactly the length
of the input and its i-th element is the recognized text of the i-th
input page — the 1-based page index carried with each task is the sort
key at collection time. -/
theorem C3_ordered_collection (recognize : Img → Option String) (images : List Img)
    (completed : List (Nat × String))
    (hperm : completed.Perm ((makeTasks images).map (ocr_bytes_worker recognize))) :
    collectPages completed = recTexts recognize images ∧
    (collectPages completed).length = images.length ∧
    ∀ i : Nat, (collectPages completed)[i]?
      = (images[i]?).map (fun img => (recognize img).getD "") := by
  have h := collectPages_perm recognize images completed hperm
  refine ⟨h, ?_, ?_⟩
  · rw [h, recTexts, List.length_map]
  · intro i
    rw [h, recTexts, List.getElem?_map]

/-- A concrete recognition oracle for witnesses: page image `[1]` reads
"alpha", page image `[2]` reads "beta", anything else raises. -/
def recAB : Img → Option String :=
  fun img => if img = [1] then some "alpha" else if img = [2] then some "beta" else none

/-- Claim C3, witness: two pages completing in reversed order are
reassembled in page order. -/
theorem C3_ordered_collection_witness :
    collectPages [(2, "beta"), (1, "alpha")] = recTexts recAB [[1], [2]] ∧
    (collectPages [(2, "beta"), (1, "alpha")]).length = [[1], [2]].length ∧
    ∀ i : Nat, (collectPages [(2, "beta"), (1, "alpha")])[i]?
      = ([[1], [2]][i]?).map (fun img => (recAB img).getD "") :=
  C3_ordered_collection recAB [[1], [2]] [(2, "beta"), (1, "alpha")] (by decide)

/-! ### Claim C4 -/

/-- Claim C4: a page whose recognition raises yields the pair
`(page_no, "")` instead of propagating the error, and for a 5-page
document whose third page raises the collected sequence has length 5 with
the third text empty and all others populated. -/
theorem C4_fault_isolation (recognize : Img → Option String) :
    (∀ (img : Img) (page_no : Nat), recognize img = none →
       ocr_bytes_worker recognize (img, page_no) = (page_no, "")) ∧
    (∀ p1 p2 p3 p4 p5 t1 t2 t4 t5,
       recognize p1 = some t1 → recognize p2 = some t2 → recognize p3 = none →
       recognize p4 = some t4 → recognize p5 = some t5 →
       collectPages ((makeTasks [p1, p2, p3, p4, p5]).map (ocr_bytes_worker recognize))
         = [t1, t2, "", t4, t5]) := by
  constructor
  · intro img page_no h
    simp [ocr_bytes_worker, h]
  · intro p1 p2 p3 p4 p5 t1 t2 t4 t5 h1 h2 h3 h4 h5
    simp only [collectPages, makeTasks, List.length_cons, List.length_nil, List.range',
      List.zip_cons_cons, List.zip_nil_right, List.map_cons, List.map_nil,
      ocr_bytes_worker, h1, h2, h3, h4, h5]
    rfl

/-- A recognition oracle failing exactly on page image `[3]`. -/
def recFail3 : Img → Option String :=
  fun img =>
    if img = [3] then none
    else if img = [1] then some "one"
    else if img = [2] then some "two"
    else if img = [4] then some "four"
    else if img = [5] then some "five"
    else none

/-- Claim C4, witness: the 5-page scenario at concrete pages, with page 3
raising. -/
theorem C4_fault_isolation_witness :
    collectPages ((makeTasks [[1], [2], [3], [4], [5]]).map (ocr_bytes_worker recFail3))
      = ["one", "two", "", "four", "five"] :=
  (C4_fault_isolation recFail3).2 [1] [2] [3] [4] [5] "one" "two" "four" "five"
    rfl rfl rfl rfl rfl

/-! ### Coordinator path lemmas -/

/-- The cache object name computed on the miss path. -/
def missName (doc : Doc) : String := file_sha256 doc.content ++ ".json"

/-- The index entry written on a successful miss. -/
def missEntry (doc : Doc) : IndexEntry :=
  ⟨doc.mtime, doc.size, file_sha256 doc.content, missName doc⟩

/-- The record built on a miss that produced the given page images. -/
def missData (env : Env) (doc : Doc) (images : List Img) : OcrData :=
  ⟨doc.absPath, file_sha256 doc.content, doc.mtime, doc.size, missName doc,
   recTexts env.recognize images⟩

theorem cacheHit_of_entry (index : IndexMap) (store : Store) (doc : Doc)
    (entry : IndexEntry) (d : OcrData)
    (he : index doc.absPath = some entry) (hm : entry.mtime = doc.mtime)
    (hs : entry.size = doc.size) (hst : store entry.cache_file = some (some d)) :
    cacheHit index store doc = some d := by
  simp [cacheHit, he, hst, hm, hs]

theorem cacheHit_some_iff (index : IndexMap) (store : Store) (doc : Doc) (d : OcrData) :
    cacheHit index store doc = some d ↔
      ∃ entry, index doc.absPath = some entry ∧ entry.mtime = doc.mtime ∧
        entry.size = doc.size ∧ store entry.cache_file = some (some d) := by
  constructor
  · intro h
    unfold cacheHit at h
    split at h
    next entry heq =>
      split at h
      next hc =>
        split at h
        next d0 hst =>
          have hd : d0 = d := by simpa using h
          exact ⟨entry, heq, hc.1, hc.2, by rw [hst, hd]⟩
        next hst => exact absurd h (by simp)
        next hst => exact absurd h (by simp)
      next hc => exact absurd h (by simp)
    next heq => exact absurd h (by simp)
  · rintro ⟨entry, he, hm, hs, hst⟩
    exact cacheHit_of_entry index store doc entry d he hm hs hst

theorem ocr_hit (env : Env) (doc : Doc) (index : IndexMap) (store : Store)
    (diskIndex : IndexMap) (d : OcrData) (h : cacheHit index store doc = some d) :
    ocr_pdf_with_cache env doc index store diskIndex =
      ⟨Except.ok d, index, store, diskIndex⟩ := by
  unfold ocr_pdf_with_cache
  rw [h]

theorem ocr_zero_pages (env : Env) (doc : Doc) (index : IndexMap) (store : Store)
    (diskIndex : IndexMap) (hmiss : cacheHit index store doc = none)
    (hraster : doc.raster = none ∨ doc.raster = some []) :
    ocr_pdf_with_cache env doc index store diskIndex =
      ⟨Except.error PyErr.unboundLocal, index, store, diskIndex⟩ := by
  unfold ocr_pdf_with_cache
  rw [hmiss]
  rcases hraster with h | h <;> rw [h] <;> rfl

theorem ocr_miss_pages (env : Env) (doc : Doc) (index : IndexMap) (store : Store)
    (diskIndex : IndexMap) (images : List Img)
    (hmiss : cacheHit index store doc = none)
    (himg : doc.raster = some images) (hne : images ≠ []) :
    ocr_pdf_with_cache env doc index store diskIndex =
      (if env.recordWriteOk then
        if env.indexWriteOk then
          ⟨Except.ok (missData env doc images),
           updf index doc.absPath (missEntry doc),
           updf store (missName doc) (some (missData env doc images)),
           updf index doc.absPath (missEntry doc)⟩
        else
          ⟨Except.error PyErr.persistence,
           updf index doc.absPath (missEntry doc),
           updf store (missName doc) (some (missData env doc images)),
           diskIndex⟩
      else ⟨Except.error PyErr.persistence, index, store, diskIndex⟩) := by
  have hpages : collectPages ((makeTasks images).map (ocr_bytes_worker env.recognize))
      = recTexts env.recognize images :=
    collectPages_perm env.recognize images _ (List.Perm.refl _)
  have htasks : ¬((makeTasks images).isEmpty = true) := by
    simp [makeTasks, hne]
  have hrect : ¬((recTexts env.recognize images).isEmpty = true) := by
    simp [recTexts, hne]
  unfold ocr_pdf_with_cache
  rw [hmiss, himg]
  simp only [Option.getD_some]
  rw [if_neg htasks, hpages, if_neg hrect]
  rfl

theorem cacheHit_none_of_mtime (index : IndexMap) (store : Store) (doc : Doc)
    (entry : IndexEntry) (he : index doc.absPath = some entry)
    (hm : entry.mtime ≠ doc.mtime) :
    cacheHit index store doc = none := by
  simp [cacheHit, he, hm]

/-! ### Claim C1 -/

/-- Claim C1 (code bug): on the miss path, a document whose rasterization
yields zero pages (in particular when `convert_from_path` raised and the
handler set `images = []`) does not produce a trivial cached record.
`data` is assigned only inside `if pages_text:`, so the final
`return data` raises `UnboundLocalError`; no cache file is written and
the index is left untouched, so the document is retried on every later
run — contrary to the claim and to the function's own docstring, which
promises "write cache file, update index, and return" on this path. -/
theorem C1_zero_pages_bug (env : Env) (doc : Doc) (index : IndexMap) (store : Store)
    (diskIndex : IndexMap) (hmiss : cacheHit index store doc = none)
    (hraster : doc.raster = none ∨ doc.raster = some []) :
    ocr_pdf_with_cache env doc index store diskIndex =
      ⟨Except.error PyErr.unboundLocal, index, store, diskIndex⟩ :=
  ocr_zero_pages env doc index store diskIndex hmiss hraster

/-- A concrete document whose rasterizer raises. -/
def docNoPages : Doc := ⟨"/src/broken.pdf", 100, 9, [7], none⟩

/-- Claim C1, witness: the failing input evaluated concretely — the call
raises and every piece of state is unchanged. -/
theorem C1_zero_pages_bug_witness :
    ocr_pdf_with_cache ⟨recAB, true, true⟩ docNoPages emptyIndex emptyStore emptyIndex
      = ⟨Except.error PyErr.unboundLocal, emptyIndex, emptyStore, emptyIndex⟩ :=
  C1_zero_pages_bug ⟨recAB, true, true⟩ docNoPages emptyIndex emptyStore emptyIndex
    rfl (Or.inl rfl)

/-! ### Claim C2 -/

/-- Claim C2: (1) the fast path is taken exactly when the index holds an
entry for the document's absolute path whose stored mtime and size both
equal the file's current metadata and the referenced cache file exists
and parses; (2) on that path the cached record is returned and no state
changes; (3) the returned outcome is the same for every recognition
oracle, every file content and every rasterization result — the hit path
does no hashing and no recognition work; (4) an entry whose stored mtime
differs (for example the modification time changed while the content did
not) forces the full miss path, which recomputes the digest from the
file's bytes and re-recognizes every page; (5) a second call on the
unchanged document returns a record identical to the first call's,
again without any recognition work. -/
theorem C2_cache_hit (env env2 : Env) (doc : Doc) (index : IndexMap) (store : Store)
    (diskIndex : IndexMap) :
    (∀ d, cacheHit index store doc = some d ↔
       ∃ entry, index doc.absPath = some entry ∧ entry.mtime = doc.mtime ∧
         entry.size = doc.size ∧ store entry.cache_file = some (some d)) ∧
    (∀ d, cacheHit index store doc = some d →
       ocr_pdf_with_cache env doc index store diskIndex =
         ⟨Except.ok d, index, store, diskIndex⟩) ∧
    (∀ d content2 raster2, cacheHit index store doc = some d →
       ocr_pdf_with_cache env2 ⟨doc.absPath, doc.mtime, doc.size, content2, raster2⟩
           index store diskIndex =
         ⟨Except.ok d, index, store, diskIndex⟩) ∧
    (∀ entry images, index doc.absPath = some entry → entry.mtime ≠ doc.mtime →
       doc.raster = some images → images ≠ [] →
       env.recordWriteOk = true → env.indexWriteOk = true →
       ocr_pdf_with_cache env doc index store diskIndex =
         ⟨Except.ok (missData env doc images),
          updf index doc.absPath (missEntry doc),
          updf store (missName doc) (some (missData env doc images)),
          updf index doc.absPath (missEntry doc)⟩) ∧
    (∀ d, (ocr_pdf_with_cache env doc index store diskIndex).result = Except.ok d →
       ocr_pdf_with_cache env2 doc
           (ocr_pdf_with_cache env doc index store diskIndex).index
           (ocr_pdf_with_cache env doc index store diskIndex).store
           (ocr_pdf_with_cache env doc index store diskIndex).diskIndex =
         ⟨Except.ok d,
          (ocr_pdf_with_cache env doc index store diskIndex).index,
          (ocr_pdf_with_cache env doc index store diskIndex).store,
          (ocr_pdf_with_cache env doc index store diskIndex).diskIndex⟩) := by
  refine ⟨fun d => cacheHit_some_iff index store doc d,
          fun d h => ocr_hit env doc index store diskIndex d h,
          fun d content2 raster2 h => ?_, fun entry images he hm himg hne hrec hidx => ?_,
          fun d hres => ?_⟩
  · exact ocr_hit env2 _ index store diskIndex d h
  · rw [ocr_miss_pages env doc index store diskIndex images
        (cacheHit_none_of_mtime index store doc entry he hm) himg hne]
    simp [hrec, hidx]
  · rcases hhit : cacheHit index store doc with _ | d0
    · rcases hras : doc.raster with _ | images
      · rw [ocr_zero_pages env doc index store diskIndex hhit (Or.inl hras)] at hres
        exact absurd hres (by simp)
      · by_cases hne2 : images = []
        · rw [hne2] at hras
          rw [ocr_zero_pages env doc index store diskIndex hhit (Or.inr hras)] at hres
          exact absurd hres (by simp)
        · have hmisseq := ocr_miss_pages env doc index store diskIndex images hhit hras hne2
          rcases hrec : env.recordWriteOk with _ | _
          · rw [hmisseq] at hres
            simp [hrec] at hres
          · rcases hidx : env.indexWriteOk with _ | _
            · rw [hmisseq] at hres
              simp [hrec, hidx] at hres
            · rw [hmisseq] at hres ⊢
              simp only [hrec, hidx, if_true] at hres ⊢
              have hhit2 : cacheHit (updf index doc.absPath (missEntry doc))
                  (updf store (missName doc) (some (missData env doc images))) doc
                    = some (missData env doc images) := by
                refine cacheHit_of_entry _ _ _ (missEntry doc) _ ?_ rfl rfl ?_
                · simp [updf]
                · simp [updf, missEntry, missName]
              have hd : missData env doc images = d := by simpa using hres
              rw [ocr_hit env2 doc _ _ _ _ hhit2, hd]
    · rw [ocr_hit env doc index store diskIndex d0 hhit] at hres ⊢
      have hd : d0 = d := by simpa using hres
      rw [ocr_hit env2 doc index store diskIndex d0 hhit, hd]

/-- The index entry, record and document of the concrete cache-hit
witness. -/
def entryHit : IndexEntry := ⟨50, 3, "cafe", "cafe.json"⟩

def dataHit : OcrData := ⟨"/src/doc.pdf", "cafe", 50, 3, "cafe.json", ["hello world"]⟩

def docHit : Doc := ⟨"/src/doc.pdf", 50, 3, [9, 9], none⟩

def indexHit : IndexMap := updf emptyIndex "/src/doc.pdf" entryHit

def storeHit : Store := updf emptyStore "cafe.json" (some dataHit)

/-- Claim C2, witness: a concrete cache hit returns the cached record
with all state unchanged, under a recognition oracle that would fail on
every page and a document whose rasterizer would raise — demonstrating
that the hit path performs no recognition and no rasterization. -/
theorem C2_cache_hit_witness :
    ocr_pdf_with_cache ⟨fun _ => none, true, true⟩ docHit indexHit storeHit emptyIndex
      = ⟨Except.ok dataHit, indexHit, storeHit, emptyIndex⟩ :=
  (C2_cache_hit ⟨fun _ => none, true, true⟩ ⟨fun _ => none, true, true⟩ docHit indexHit
    storeHit emptyIndex).2.1 dataHit rfl

/-! ### Claim C6 -/

theorem cacheHit_none_of_store (index : IndexMap) (store : Store) (doc : Doc)
    (entry : IndexEntry) (he : index doc.absPath = some entry)
    (hst : store entry.cache_file = none ∨ store entry.cache_file = some none) :
    cacheHit index store doc = none := by
  by_cases hc : entry.mtime = doc.mtime ∧ entry.size = doc.size
  · rcases hst with h | h <;> simp [cacheHit, he, hc.1, hc.2, h]
  · simp [cacheHit, he, hc]

/-- Claim C6: reading an absent or unparsable index file yields the empty
mapping rather than failing; an index entry whose referenced cache record
file is missing or holds malformed JSON is treated as not-found, so the
call falls through to full recomputation — fresh digest from the file's
bytes and fresh recognition of every page; neither corruption raises. -/
theorem C6_corruption_tolerated (env : Env) (doc : Doc) (index : IndexMap) (store : Store)
    (diskIndex : IndexMap) :
    load_index none = emptyIndex ∧
    load_index (some none) = emptyIndex ∧
    (∀ entry, index doc.absPath = some entry →
       (store entry.cache_file = none ∨ store entry.cache_file = some none) →
       cacheHit index store doc = none) ∧
    (∀ entry images, index doc.absPath = some entry →
       (store entry.cache_file = none ∨ store entry.cache_file = some none) →
       doc.raster = some images → images ≠ [] →
       env.recordWriteOk = true → env.indexWriteOk = true →
       ocr_pdf_with_cache env doc index store diskIndex =
         ⟨Except.ok (missData env doc images),
          updf index doc.absPath (missEntry doc),
          updf store (missName doc) (some (missData env doc images)),
          updf index doc.absPath (missEntry doc)⟩) := by
  refine ⟨rfl, rfl, fun entry he hst => cacheHit_none_of_store index store doc entry he hst,
          fun entry images he hst himg hne hrec hidx => ?_⟩
  rw [ocr_miss_pages env doc index store diskIndex images
      (cacheHit_none_of_store index store doc entry he hst) himg hne]
  simp [hrec, hidx]

/-- A cache directory in which the record referenced by `entryHit`
exists but holds malformed JSON. -/
def storeBad : Store := updf emptyStore "cafe.json" none

/-- A document matching `entryHit` by metadata, with one rasterized page
and empty content bytes. -/
def docRecompute : Doc := ⟨"/src/doc.pdf", 50, 3, [], some [[1]]⟩

/-- The recognition oracle and write flags used by several witnesses:
recognition succeeds on pages `[1]` and `[2]`, both writes succeed. -/
def envOk : Env := ⟨recAB, true, true⟩

set_option maxRecDepth 10000 in
/-- Claim C6, witness: with a matching index entry whose record file is
malformed, the concrete call recomputes and rewrites the record and the
index entry. -/
theorem C6_corruption_tolerated_witness :
    ocr_pdf_with_cache envOk docRecompute indexHit storeBad emptyIndex =
      ⟨Except.ok (missData envOk docRecompute [[1]]),
       updf indexHit "/src/doc.pdf" (missEntry docRecompute),
       updf storeBad (missName docRecompute) (some (missData envOk docRecompute [[1]])),
       updf indexHit "/src/doc.pdf" (missEntry docRecompute)⟩ :=
  (C6_corruption_tolerated envOk docRecompute indexHit storeBad emptyIndex).2.2.2
    entryHit [[1]] rfl (Or.inr rfl) rfl (by decide) rfl rfl

/-! ### Claim C7 -/

/-- The write-failure environments of the persistence witnesses. -/
def envNoRecordWrite : Env := ⟨recAB, false, true⟩

def envNoIndexWrite : Env := ⟨recAB, true, false⟩

/-- A fresh one-page document absent from the index. -/
def docFresh : Doc := ⟨"/src/new.pdf", 10, 4, [], some [[1]]⟩

/-- Claim C7, counterexample.  When persisting the record fails, the
freshly computed record is NOT returned to the caller: `safe_write_json`
raises out of `ocr_pdf_with_cache` (there is no try/except around the
persistence steps), so at this concrete input the call yields an
exception, not the record the claim promises. -/
theorem C7_persistence_counterexample :
    (ocr_pdf_with_cache envNoRecordWrite docFresh emptyIndex emptyStore emptyIndex).result
      = Except.error PyErr.persistence := rfl

/-- Claim C7 (amended): if persisting the record or the index fails, the
exception propagates out of `ocr_pdf_with_cache` — the freshly computed
record is not returned (on a record-write failure nothing is persisted
and the in-memory index is untouched; on an index-write failure the
record file and the in-memory index entry are already updated but the
on-disk index is not) — and the per-document try/except in `main`
reports the failure for that document only and continues the run with
the remaining documents, the failed document contributing nothing to the
in-memory results, so a later run reprocesses it. -/
theorem C7_persistence_propagates (env : Env) (doc : Doc) (rest : List Doc)
    (index : IndexMap) (store : Store) (diskIndex : IndexMap) :
    (∀ images, cacheHit index store doc = none → doc.raster = some images → images ≠ [] →
       env.recordWriteOk = false →
       ocr_pdf_with_cache env doc index store diskIndex =
         ⟨Except.error PyErr.persistence, index, store, diskIndex⟩) ∧
    (∀ images, cacheHit index store doc = none → doc.raster = some images → images ≠ [] →
       env.recordWriteOk = true → env.indexWriteOk = false →
       ocr_pdf_with_cache env doc index store diskIndex =
         ⟨Except.error PyErr.persistence,
          updf index doc.absPath (missEntry doc),
          updf store (missName doc) (some (missData env doc images)),
          diskIndex⟩) ∧
    (∀ e, (ocr_pdf_with_cache env doc index store diskIndex).result = Except.error e →
       processAll env (doc :: rest) index store diskIndex =
         processAll env rest (ocr_pdf_with_cache env doc index store diskIndex).index
           (ocr_pdf_with_cache env doc index store diskIndex).store
           (ocr_pdf_with_cache env doc index store diskIndex).diskIndex) := by
  refine ⟨fun images hmiss himg hne hrec => ?_, fun images hmiss himg hne hrec hidx => ?_,
          fun e he => ?_⟩
  · rw [ocr_miss_pages env doc index store diskIndex images hmiss himg hne]
    simp [hrec]
  · rw [ocr_miss_pages env doc index store diskIndex images hmiss himg hne]
    simp [hrec, hidx]
  · simp only [processAll, List.foldl_cons]
    rw [he]

set_option maxRecDepth 10000 in
/-- Claim C7, witness: a concrete index-write failure — the exception is
raised, the record file and the in-memory index entry were already
written, and the on-disk index is unchanged. -/
theorem C7_persistence_propagates_witness :
    ocr_pdf_with_cache envNoIndexWrite docFresh emptyIndex emptyStore emptyIndex =
      ⟨Except.error PyErr.persistence,
       updf emptyIndex "/src/new.pdf" (missEntry docFresh),
       updf emptyStore (missName docFresh)
         (some (missData envNoIndexWrite docFresh [[1]])),
       emptyIndex⟩ :=
  (C7_persistence_propagates envNoIndexWrite docFresh [] emptyIndex emptyStore
    emptyIndex).2.1 [[1]] rfl rfl (by decide) rfl rfl

/-! ### Claim C10 -/

/-- Claim C10: `ocr_pdf_with_cache` mutates the caller's index mapping
only at the processed document's absolute path — every other key reads
unchanged whatever the outcome; on a cache hit the whole mapping is
unchanged; and on a miss that produced at least one page (with the
record write succeeding, after which the dict assignment happens
unconditionally) the entry at the document's path is created or
overwritten with the fresh metadata. -/
theorem C10_index_frame (env : Env) (doc : Doc) (index : IndexMap) (store : Store)
    (diskIndex : IndexMap) :
    (∀ k, k ≠ doc.absPath →
       (ocr_pdf_with_cache env doc index store diskIndex).index k = index k) ∧
    (∀ d, cacheHit index store doc = some d →
       (ocr_pdf_with_cache env doc index store diskIndex).index = index) ∧
    (∀ images, cacheHit index store doc = none → doc.raster = some images →
       images ≠ [] → env.recordWriteOk = true →
       (ocr_pdf_with_cache env doc index store diskIndex).index doc.absPath
         = some (missEntry doc)) := by
  refine ⟨fun k hk => ?_, fun d h => by rw [ocr_hit env doc index store diskIndex d h],
          fun images hmiss himg hne hrec => ?_⟩
  · rcases hhit : cacheHit index store doc with _ | d0
    · rcases hras : doc.raster with _ | images
      · rw [ocr_zero_pages env doc index store diskIndex hhit (Or.inl hras)]
      · by_cases hne2 : images = []
        · rw [hne2] at hras
          rw [ocr_zero_pages env doc index store diskIndex hhit (Or.inr hras)]
        · rw [ocr_miss_pages env doc index store diskIndex images hhit hras hne2]
          rcases hrec : env.recordWriteOk with _ | _
          · simp [hrec]
          · rcases hidx : env.indexWriteOk with _ | _ <;>
              simp [hrec, hidx, updf, hk]
    · rw [ocr_hit env doc index store diskIndex d0 hhit]
  · rw [ocr_miss_pages env doc index store diskIndex images hmiss himg hne]
    rcases hidx : env.indexWriteOk with _ | _ <;> simp [hrec, hidx, updf]

set_option maxRecDepth 10000 in
/-- Claim C10, witness: a concrete miss creates exactly the entry at the
document's path, and an unrelated key is untouched. -/
theorem C10_index_frame_witness :
    (ocr_pdf_with_cache envOk docFresh emptyIndex emptyStore emptyIndex).index
        "/src/other.pdf" = emptyIndex "/src/other.pdf" ∧
    (ocr_pdf_with_cache envOk docFresh emptyIndex emptyStore emptyIndex).index
        "/src/new.pdf" = some (missEntry docFresh) :=
  ⟨(C10_index_frame envOk docFresh emptyIndex emptyStore emptyIndex).1
      "/src/other.pdf" (by decide),
   (C10_index_frame envOk docFresh emptyIndex emptyStore emptyIndex).2.2
      [[1]] rfl rfl (by decide) rfl⟩

/-! ### Claim C9 -/

theorem lexLe_total : ∀ as bs : List Char, lexLe as bs ∨ lexLe bs as := by
  intro as
  induction as with
  | nil => intro bs; exact Or.inl trivial
  | cons a as ih =>
    intro bs
    cases bs with
    | nil => exact Or.inr trivial
    | cons b bs =>
      simp only [lexLe]
      rcases lt_trichotomy a b with h | h | h
      · exact Or.inl (Or.inl h)
      · rcases ih bs with h2 | h2
        · exact Or.inl (Or.inr ⟨h, h2⟩)
        · exact Or.inr (Or.inr ⟨h.symm, h2⟩)
      · exact Or.inr (Or.inl h)

theorem lexLe_trans : ∀ as bs cs : List Char, lexLe as bs → lexLe bs cs → lexLe as cs := by
  intro as
  induction as with
  | nil => intro bs cs _ _; exact trivial
  | cons a as ih =>
    intro bs cs h1 h2
    cases bs with
    | nil => exact absurd h1 (by simp [lexLe])
    | cons b bs =>
      cases cs with
      | nil => exact absurd h2 (by simp [lexLe])
      | cons c cs =>
        simp only [lexLe] at h1 h2 ⊢
        rcases h1 with h1 | ⟨he1, h1⟩
        · rcases h2 with h2 | ⟨he2, h2⟩
          · exact Or.inl (lt_trans h1 h2)
          · exact Or.inl (he2 ▸ h1)
        · rcases h2 with h2 | ⟨he2, h2⟩
          · exact Or.inl (he1 ▸ h2)
          · exact Or.inr ⟨he1.trans he2, ih bs cs h1 h2⟩

instance : IsTotal String pathLe := ⟨fun a b => lexLe_total a.toList b.toList⟩

instance : IsTrans String pathLe := ⟨fun a b c => lexLe_trans a.toList b.toList c.toList⟩

/-- Claim C9: listing a missing or non-directory source fails fatally
(`SystemExit`, reported to the caller); listing an existing directory
returns exactly the resolved paths of its regular files whose lower-cased
suffix is `.pdf` (non-recursive — only the directory's own entries are
listed), sorted deterministically. -/
theorem C9_list_documents :
    (list_pdf_files none = Except.error "SOURCE_DIR not found or not a directory") ∧
    (∀ entries l, list_pdf_files (some entries) = Except.ok l →
       List.Sorted pathLe l ∧
       l.Perm ((entries.filter isPdfEntry).map (fun f => f.resolved)) ∧
       (∀ p, p ∈ l ↔ ∃ f, f ∈ entries ∧ isPdfEntry f = true ∧ f.resolved = p)) := by
  refine ⟨rfl, fun entries l h => ?_⟩
  have hl : List.insertionSort pathLe
      ((entries.filter isPdfEntry).map (fun f => f.resolved)) = l := by
    simpa [list_pdf_files] using h
  subst hl
  refine ⟨List.sorted_insertionSort pathLe _, List.perm_insertionSort pathLe _, fun p => ?_⟩
  rw [List.mem_insertionSort]
  simp [List.mem_map, List.mem_filter, and_assoc]

/-- A concrete directory listing: an upper-case extension that must be
kept, a plain match, a text file, a directory named like a PDF, and a
file literally named `.pdf` (whose `pathlib` suffix is empty). -/
def scanEntries : List DirEntry :=
  [⟨"b.PDF", "/s/b.PDF", true⟩, ⟨"a.pdf", "/s/a.pdf", true⟩,
   ⟨"notes.txt", "/s/notes.txt", true⟩, ⟨"sub.pdf", "/s/sub.pdf", false⟩,
   ⟨".pdf", "/s/.pdf", true⟩]

/-- Claim C9, witness: the theorem evaluated at the concrete listing —
the two regular `.pdf` files are returned, resolved and sorted. -/
theorem C9_list_documents_witness :
    List.Sorted pathLe ["/s/a.pdf", "/s/b.PDF"] ∧
    List.Perm ["/s/a.pdf", "/s/b.PDF"]
      ((scanEntries.filter isPdfEntry).map (fun f => f.resolved)) ∧
    (∀ p, p ∈ ["/s/a.pdf", "/s/b.PDF"] ↔
       ∃ f, f ∈ scanEntries ∧ isPdfEntry f = true ∧ f.resolved = p) :=
  (C9_list_documents).2 scanEntries ["/s/a.pdf", "/s/b.PDF"] rfl

/-! ### Claim C5 -/

theorem tmpName_ne (p : String) : tmpName p ≠ p := by
  intro h
  have h2 : p.data ++ ".tmp".data = p.data := congrArg String.data h
  have h3 := congrArg List.length h2
  simp at h3

theorem lastIdxOf_append_single (c e : Char) (he : e ≠ c) (cs : List Char) :
    lastIdxOf c (cs ++ [e]) = lastIdxOf c cs := by
  unfold lastIdxOf
  have hlen : (cs ++ [e]).length = cs.length + 1 := by simp
  rw [hlen, List.range_succ, List.filter_append]
  have h1 : List.filter (fun i => (cs ++ [e]).getD i ' ' == c) [cs.length] = [] := by
    simp only [List.filter, List.getD_eq_getElem?_getD]
    rw [List.getElem?_append_right (Nat.le_refl _)]
    have hec : (e == c) = false := by simp [he]
    simp [hec]
  have h2 : List.filter (fun i => (cs ++ [e]).getD i ' ' == c) (List.range cs.length)
      = List.filter (fun i => cs.getD i ' ' == c) (List.range cs.length) := by
    apply List.filter_congr
    intro i hi
    rw [List.mem_range] at hi
    simp only [List.getD_eq_getElem?_getD]
    rw [List.getElem?_append_left hi]
  rw [h1, h2, List.append_nil]

theorem lastIdxOf_append_of_all_ne (c : Char) :
    ∀ ds : List Char, (∀ e ∈ ds, e ≠ c) →
      ∀ cs, lastIdxOf c (cs ++ ds) = lastIdxOf c cs := by
  intro ds
  induction ds with
  | nil => intro _ cs; simp
  | cons e ds ih =>
    intro hds cs
    rw [show cs ++ (e :: ds) = (cs ++ [e]) ++ ds by simp]
    rw [ih (fun x hx => hds x (List.mem_cons_of_mem e hx)) (cs ++ [e])]
    exact lastIdxOf_append_single c e (hds e (List.mem_cons_self e ds)) cs

theorem lastIdxOf_some_lt (c : Char) (cs : List Char) (i : Nat)
    (h : lastIdxOf c cs = some i) : i < cs.length := by
  unfold lastIdxOf at h
  have h1 := List.mem_of_getLast?_eq_some h
  have h2 := (List.mem_filter.mp h1).1
  exact List.mem_range.mp h2

theorem take_append_of_le {α : Type} (i : Nat) (cs ds : List α) (h : i ≤ cs.length) :
    (cs ++ ds).take i = cs.take i := by
  induction cs generalizing i with
  | nil =>
    rw [Nat.le_zero.mp h]
    simp
  | cons a cs ih =>
    cases i with
    | zero => simp
    | succ i =>
      simp only [List.cons_append, List.take_succ_cons]
      rw [ih i (Nat.le_of_succ_le_succ h)]

theorem parentDir_tmpName (p : String) : parentDir (tmpName p) = parentDir p := by
  unfold parentDir tmpName
  have hl : (p ++ ".tmp").toList = p.toList ++ ['.', 't', 'm', 'p'] := rfl
  rw [hl, lastIdxOf_append_of_all_ne '/' ['.', 't', 'm', 'p'] (by decide) p.toList]
  cases h : lastIdxOf '/' p.toList with
  | none => rfl
  | some i =>
    have hlt := lastIdxOf_some_lt '/' p.toList i h
    show String.mk ((p.toList ++ ['.', 't', 'm', 'p']).take i) = String.mk (p.toList.take i)
    rw [take_append_of_le i p.toList _ (Nat.le_of_lt hlt)]

theorem readerConsistent_set_other (cacheDir : String) (fsb : FS) (t : String)
    (v : Option FileData) (hb : readerConsistent cacheDir fsb)
    (ht_idx : cacheDir ++ indexName ≠ t)
    (ht_rec : ∀ k, isRecordFile (fsb k) = true → k ≠ t) :
    readerConsistent cacheDir (fsSet fsb t v) := by
  intro m0 hidx pe hpe
  simp only [fsSet] at hidx ⊢
  rw [if_neg ht_idx] at hidx
  have hrec := hb m0 hidx pe hpe
  rw [if_neg (ht_rec _ hrec)]
  exact hrec

theorem readerConsistent_set_record (cacheDir : String) (fsb : FS) (p : String)
    (d0 : OcrData) (hb : readerConsistent cacheDir fsb)
    (hp_idx : cacheDir ++ indexName ≠ p) :
    readerConsistent cacheDir (fsSet fsb p (some (FileData.record d0))) := by
  intro m0 hidx pe hpe
  simp only [fsSet] at hidx ⊢
  rw [if_neg hp_idx] at hidx
  have hrec := hb m0 hidx pe hpe
  by_cases hk : cacheDir ++ pe.2.cache_file = p
  · rw [if_pos hk]
    rfl
  · rw [if_neg hk]
    exact hrec

/-- Claim C5: (1) the temporary file `safe_write_json` writes is in the
same directory as its destination — appending `.tmp` does not change the
parent directory; (2) along the whole persistence sequence of a cache
miss — temporary record file written, renamed over the record path, then
temporary index file written, renamed over the index path, the record
strictly before the index — every crash point leaves a state in which a
reader that parses the index file finds every referenced record file
present and completely written: it sees the old consistent state or the
new consistent state, never an index entry pointing at a missing or
half-written record. -/
theorem C5_crash_safety :
    (∀ p : String, parentDir (tmpName p) = parentDir p) ∧
    (∀ (cacheDir : String) (fs : FS) (d : OcrData) (m : List (String × IndexEntry)),
       readerConsistent cacheDir fs →
       (∀ pe ∈ m, pe.2.cache_file = d.cache_file ∨
          isRecordFile (fs (cacheDir ++ pe.2.cache_file)) = true) →
       (∀ k, isRecordFile (fs k) = true →
          k ≠ tmpName (cacheDir ++ d.cache_file) ∧
          k ≠ tmpName (cacheDir ++ indexName) ∧ k ≠ cacheDir ++ indexName) →
       cacheDir ++ indexName ≠ cacheDir ++ d.cache_file →
       cacheDir ++ indexName ≠ tmpName (cacheDir ++ d.cache_file) →
       cacheDir ++ d.cache_file ≠ tmpName (cacheDir ++ indexName) →
       ∀ s ∈ persistStates cacheDir fs d m, readerConsistent cacheDir s) := by
  refine ⟨parentDir_tmpName, ?_⟩
  intro cacheDir fs d m hcons hm hfresh hne hidx1 htmpidx s hs
  have hcons_tmp : ∀ v, readerConsistent cacheDir
      (fsSet fs (tmpName (cacheDir ++ d.cache_file)) v) := by
    intro v
    exact readerConsistent_set_other cacheDir fs _ v hcons hidx1
      (fun k hk => (hfresh k hk).1)
  have hcons_fs1 : readerConsistent cacheDir
      (safe_write_json_fs fs (cacheDir ++ d.cache_file) (FileData.record d)) := by
    unfold safe_write_json_fs
    exact readerConsistent_set_record cacheDir _ _ d (hcons_tmp none) hne
  have hfs1_records : ∀ k,
      isRecordFile (safe_write_json_fs fs (cacheDir ++ d.cache_file)
        (FileData.record d) k) = true →
      k = cacheDir ++ d.cache_file ∨ isRecordFile (fs k) = true := by
    intro k hk
    simp only [safe_write_json_fs, fsSet] at hk
    by_cases h1 : k = cacheDir ++ d.cache_file
    · exact Or.inl h1
    · rw [if_neg h1] at hk
      by_cases h2 : k = tmpName (cacheDir ++ d.cache_file)
      · rw [if_pos h2] at hk
        exact absurd hk (by simp [isRecordFile])
      · rw [if_neg h2] at hk
        exact Or.inr hk
  have hcons_tmp2 : ∀ v, readerConsistent cacheDir
      (fsSet (safe_write_json_fs fs (cacheDir ++ d.cache_file) (FileData.record d))
        (tmpName (cacheDir ++ indexName)) v) := by
    intro v
    refine readerConsistent_set_other cacheDir _ _ v hcons_fs1
      (fun h => tmpName_ne _ h.symm) ?_
    intro k hk
    rcases hfs1_records k hk with h | h
    · rw [h]
      exact htmpidx
    · exact (hfresh k h).2.1
  have hcons_final : readerConsistent cacheDir
      (safe_write_json_fs (safe_write_json_fs fs (cacheDir ++ d.cache_file)
        (FileData.record d)) (cacheDir ++ indexName) (FileData.indexData m)) := by
    intro m0 hidx pe hpe
    simp only [safe_write_json_fs, fsSet] at hidx ⊢
    rw [if_pos trivial] at hidx
    injection hidx with h1
    injection h1 with h2
    subst h2
    rcases hm pe hpe with hcf | hold
    · rw [hcf, if_neg (fun h => hne h.symm), if_neg htmpidx, if_pos rfl]
      rfl
    · obtain ⟨h1, h2, h3⟩ := hfresh _ hold
      rw [if_neg h3, if_neg h2]
      by_cases hk : cacheDir ++ pe.2.cache_file = cacheDir ++ d.cache_file
      · rw [if_pos hk]
        rfl
      · rw [if_neg hk, if_neg h1]
        exact hold
  simp only [persistStates, safe_write_json_states, List.mem_append, List.mem_cons,
    List.not_mem_nil, or_false] at hs
  rcases hs with (h | h | h | h) | (h | h | h | h) <;> subst h
  · exact hcons
  · exact hcons_tmp _
  · exact hcons_tmp _
  · exact hcons_fs1
  · exact hcons_fs1
  · exact hcons_tmp2 _
  · exact hcons_tmp2 _
  · exact hcons_final

/-- Claim C5, witness: the crash point between the record write and the
index write, for a concrete record and index over an initially empty
cache directory — the freshly written record file is complete and the
old (absent) index is still in force. -/
theorem C5_crash_safety_witness :
    readerConsistent "/c/"
      (safe_write_json_fs (fun _ => none) ("/c/" ++ dataHit.cache_file)
        (FileData.record dataHit)) :=
  (C5_crash_safety).2 "/c/" (fun _ => none) dataHit [("/src/doc.pdf", entryHit)]
    (fun _ h _ _ => Option.noConfusion h)
    (by decide)
    (fun k hk => absurd hk (by simp [isRecordFile]))
    (by decide) (by decide) (by decide)
    (safe_write_json_fs (fun _ => none) ("/c/" ++ dataHit.cache_file)
      (FileData.record dataHit))
    (by simp [persistStates, safe_write_json_states])

end PdfOcr
